import Mathlib

/-
Verification development for the spin-trigger-mqtt crate (src/main.rs).

The embedding translates the trigger executor into pure Lean functions:

* Manifest blocks are association lists of field name to raw value
  (`RawBlock`); the serde-derived deserializers for `TriggerMetadata`
  and `MqttTriggerConfig` (both declared with
  `#[serde(deny_unknown_fields)]` and all fields required, no
  `#[serde(default)]`) are embedded as `decodeTriggerMetadata` and
  `decodeMqttTriggerConfig`: fields are consumed in order, an unknown
  field, a duplicate, a wrong-typed value or an out-of-range integer
  is an error, and any field still absent at the end is an error.
* `MqttTrigger.new` mirrors `TriggerExecutor::new`: it reads the
  trigger metadata (twice, as the source does), keeps its `address`
  and `qos`, and collects `(component, qos, topic)` triples.
* The execution engine (`spin_trigger`'s `prepare_instance`, the
  bindgen-generated `SpinMqtt::new` binding step, and the guest
  handler `call_handle_message`) is an external collaborator and is
  abstracted as an `Engine` record of fallible functions.
* Observable effects are recorded as `Event` traces.  The embedding
  emits exactly the effects the source performs (prints, task spawns,
  handler calls, panics from `.unwrap()`).  The constructors
  `subscribe`, `waitForMessage` and `forwardToBroker` are part of the
  observation vocabulary so that claims about broker subscriptions,
  message loops and outbound publishes can be stated; the source
  contains no MQTT client call, so no embedded function ever emits
  them.
* Payload bytes are `List UInt8`; `strBytes` encodes the ASCII string
  literals appearing in the source and in the claims (on ASCII text
  it coincides with Rust's `str::as_bytes` UTF-8 encoding).
-/

/-- Raw manifest field values as they arrive from the TOML/JSON layer. -/
inductive FieldValue where
  | str (s : String)
  | int (n : Int)
  deriving DecidableEq, Repr

/-- A raw manifest block: field name / raw value pairs, in source order. -/
abbrev RawBlock := List (String × FieldValue)

/-- Application settings, decoded (struct `TriggerMetadata` in main.rs). -/
structure TriggerMetadata where
  type : String
  address : String
  qos : Nat
  deriving DecidableEq, Repr

/-- Per-component settings, decoded (struct `MqttTriggerConfig` in main.rs). -/
structure MqttTriggerConfig where
  component : String
  topic : String
  qos : Nat
  deriving DecidableEq, Repr

/-- Decoding a string-typed serde field. -/
def decodeStringField : FieldValue → Option String
  | FieldValue.str s => some s
  | FieldValue.int _ => none

/-- Decoding a `u8`-typed serde field: integers outside `0..=255` are
rejected, like serde's u8 visitor. -/
def decodeU8Field : FieldValue → Option Nat
  | FieldValue.str _ => none
  | FieldValue.int n => if 0 ≤ n ∧ n < 256 then some n.toNat else none

/-- Field names accepted by the `TriggerMetadata` deserializer. -/
def tmKnownFields : List String := ["type", "address", "qos"]

/-- Field names accepted by the `MqttTriggerConfig` deserializer. -/
def mcKnownFields : List String := ["component", "topic", "qos"]

/-- The serde-derived visitor loop for `TriggerMetadata` with
`deny_unknown_fields`: walks the block, filling one accumulator per
field; unknown field, duplicate field or undecodable value is an
error; at the end each still-empty accumulator is a missing-field
error. -/
def tmAux : RawBlock → Option String → Option String → Option Nat →
    Except String TriggerMetadata
  | [], t, a, q =>
    match t with
    | none => Except.error "missing field type"
    | some tv =>
      match a with
      | none => Except.error "missing field address"
      | some av =>
        match q with
        | none => Except.error "missing field qos"
        | some qv => Except.ok ⟨tv, av, qv⟩
  | ((k, v) :: rest), t, a, q =>
    if k = "type" then
      match decodeStringField v with
      | none => Except.error "invalid value for field type"
      | some s =>
        match t with
        | some _ => Except.error "duplicate field type"
        | none => tmAux rest (some s) a q
    else if k = "address" then
      match decodeStringField v with
      | none => Except.error "invalid value for field address"
      | some s =>
        match a with
        | some _ => Except.error "duplicate field address"
        | none => tmAux rest t (some s) q
    else if k = "qos" then
      match decodeU8Field v with
      | none => Except.error "invalid value for field qos"
      | some n =>
        match q with
        | some _ => Except.error "duplicate field qos"
        | none => tmAux rest t a (some n)
    else Except.error ("unknown field " ++ k)

/-- Deserializing a `trigger` metadata block. -/
def decodeTriggerMetadata (b : RawBlock) : Except String TriggerMetadata :=
  tmAux b none none none

/-- The serde-derived visitor loop for `MqttTriggerConfig`, same regime
as `tmAux`. -/
def mcAux : RawBlock → Option String → Option String → Option Nat →
    Except String MqttTriggerConfig
  | [], c, t, q =>
    match c with
    | none => Except.error "missing field component"
    | some cv =>
      match t with
      | none => Except.error "missing field topic"
      | some tv =>
        match q with
        | none => Except.error "missing field qos"
        | some qv => Except.ok ⟨cv, tv, qv⟩
  | ((k, v) :: rest), c, t, q =>
    if k = "component" then
      match decodeStringField v with
      | none => Except.error "invalid value for field component"
      | some s =>
        match c with
        | some _ => Except.error "duplicate field component"
        | none => mcAux rest (some s) t q
    else if k = "topic" then
      match decodeStringField v with
      | none => Except.error "invalid value for field topic"
      | some s =>
        match t with
        | some _ => Except.error "duplicate field topic"
        | none => mcAux rest c (some s) q
    else if k = "qos" then
      match decodeU8Field v with
      | none => Except.error "invalid value for field qos"
      | some n =>
        match q with
        | some _ => Except.error "duplicate field qos"
        | none => mcAux rest c t (some n)
    else Except.error ("unknown field " ++ k)

/-- Deserializing one component trigger-config block. -/
def decodeMqttTriggerConfig (b : RawBlock) : Except String MqttTriggerConfig :=
  mcAux b none none none

/-- Deserializing all component blocks of the manifest; the first
failure aborts startup (this happens in `spin_trigger` engine
construction, before `TriggerExecutor::new` runs). -/
def decodeConfigs : List RawBlock → Except String (List MqttTriggerConfig)
  | [] => Except.ok []
  | b :: rest =>
    match decodeMqttTriggerConfig b with
    | Except.error e => Except.error e
    | Except.ok c =>
      match decodeConfigs rest with
      | Except.error e => Except.error e
      | Except.ok cs => Except.ok (c :: cs)

/-- The processed trigger (struct `MqttTrigger` in main.rs); the engine
handle itself is modelled separately as `Engine`.  Each entry of
`component_configs` is `(component, qos, topic)`, in the tuple order the
source builds at line 75. -/
structure MqttTrigger where
  address : String
  qos : Nat
  component_configs : List (String × Nat × String)
  deriving DecidableEq, Repr

/-- `TriggerExecutor::new`: requires the trigger metadata twice (once
for `address`, once for `qos`, as the source does) and maps each decoded
component config to a `(component, qos, topic)` triple. -/
def MqttTrigger.new (meta : RawBlock) (configs : List MqttTriggerConfig) :
    Except String MqttTrigger :=
  match decodeTriggerMetadata meta with
  | Except.error e => Except.error e
  | Except.ok m1 =>
    match decodeTriggerMetadata meta with
    | Except.error e => Except.error e
    | Except.ok m2 =>
      Except.ok ⟨m1.address, m2.qos,
        configs.map (fun c => (c.component, c.qos, c.topic))⟩

/-- Whole-application configuration resolution: decode every component
block, then run `MqttTrigger.new`.  Any failure aborts before `run`. -/
def startApp (meta : RawBlock) (raws : List RawBlock) :
    Except String MqttTrigger :=
  match decodeConfigs raws with
  | Except.error e => Except.error e
  | Except.ok cfgs => MqttTrigger.new meta cfgs

/-- ASCII byte encoding of a string literal; agrees with Rust
`str::as_bytes` on the ASCII literals used here. -/
def strBytes (s : String) : List UInt8 :=
  s.data.map (fun c => UInt8.ofNat c.toNat)

/-- Observable effects of the embedded program.  Only `printLine`,
`spawnListener`, `callHandler`, `printPublish` and `taskPanic` are ever
emitted by the embedding, because those are the only effects the source
performs; `subscribe`, `waitForMessage` and `forwardToBroker` exist so
that claims about broker interaction can be stated and refuted. -/
inductive Event where
  | printLine (s : String)
  | spawnListener (component_id : String) (qos : Nat) (topic : String)
  | subscribe (topic : String) (qos : Nat)
  | waitForMessage (topic : String)
  | callHandler (component_id : String) (payload : List UInt8)
  | printPublish (payload : List UInt8) (address_shown : String)
      (qos_shown : String) (topic : String)
  | forwardToBroker (topic : String) (payload : List UInt8)
  | taskPanic (message : String)
  deriving DecidableEq, Repr

/-- The external execution engine (the `TriggerAppEngine` /
wasmtime collaborator), abstracted: instance preparation
(`engine.prepare_instance`), the bindgen binding step (`SpinMqtt::new`)
and the guest handler (`call_handle_message`, whose outer error is a
trap / sandbox failure and whose inner error is a handler-reported
application error). -/
structure Engine where
  prepare_instance : String → Except String Unit
  bindInstance : String → Except String Unit
  handler : String → List UInt8 → Except String (Except String Unit)

/-- The payload the source passes to every handler invocation:
`"dummy mqtt data".to_string().as_bytes().to_vec()` at line 140. -/
def dummyPayload : List UInt8 := strBytes "dummy mqtt data"

/-- `MqttTrigger::handle_mqtt_event`: prints, prepares the instance
(`?`), builds the `SpinMqtt` binding (`?`), calls the guest handler
with `dummyPayload`, discards the handler result (`let _result = ...`)
and returns `Ok(())`.  Returns the event trace and the function
result. -/
def handle_mqtt_event (eng : Engine) (component_id : String)
    (mqtt_qos : Nat) (mqtt_topic : String) :
    List Event × Except String Unit :=
  let pr := Event.printLine ("Executing component handler for " ++
    component_id ++ ", " ++ toString mqtt_qos ++ ", " ++ mqtt_topic ++ "...")
  match eng.prepare_instance component_id with
  | Except.error e => ([pr], Except.error e)
  | Except.ok _ =>
    match eng.bindInstance component_id with
    | Except.error e => ([pr], Except.error e)
    | Except.ok _ =>
      let _result := eng.handler component_id dummyPayload
      ([pr, Event.callHandler component_id dummyPayload], Except.ok ())

/-- One spawned listener task: runs `handle_mqtt_event` once and
`.unwrap()`s its result (line 110), so an `Err` panics the task.
Returns the task trace and whether the task panicked. -/
def listenerRun (eng : Engine) (cfg : String × Nat × String) :
    List Event × Bool :=
  match handle_mqtt_event eng cfg.1 cfg.2.1 cfg.2.2 with
  | (tr, Except.ok _) => (tr, false)
  | (tr, Except.error e) => (tr ++ [Event.taskPanic e], true)

/-- `TriggerExecutor::run`: prints the trigger banner, then for each
`(component, qos, topic)` triple prints the component banner and spawns
one listener task given exactly that triple.  The flattened trace
collects every event the run ever emits (the tasks run concurrently;
for the claims below only which events occur matters). -/
def runTrigger (eng : Engine) (t : MqttTrigger) : List Event :=
  Event.printLine ("Executing trigger with address " ++ t.address ++
    ", qos " ++ toString t.qos ++ "...") ::
  List.flatten (t.component_configs.map (fun c =>
    Event.printLine ("Executing component " ++ c.1 ++ ", topic " ++
      c.2.2 ++ ", qos " ++ toString c.2.1 ++ "...") ::
    Event.spawnListener c.1 c.2.1 c.2.2 ::
    (listenerRun eng c).1))

/-- Full process startup: resolve configuration; on failure nothing
runs (empty trace), on success `run` executes. -/
def startedEvents (eng : Engine) (meta : RawBlock) (raws : List RawBlock) :
    List Event :=
  match startApp meta raws with
  | Except.error _ => []
  | Except.ok t => runTrigger eng t

/-- The listener spawns recorded in a trace. -/
def spawnedListeners (tr : List Event) : List (String × Nat × String) :=
  tr.filterMap (fun e =>
    match e with
    | Event.spawnListener c q t => some (c, q, t)
    | _ => none)

/-- The broker subscriptions recorded in a trace. -/
def subscriptions (tr : List Event) : List (String × Nat) :=
  tr.filterMap (fun e =>
    match e with
    | Event.subscribe t q => some (t, q)
    | _ => none)

/-- The waits for a next inbound message recorded in a trace. -/
def messageWaits (tr : List Event) : List String :=
  tr.filterMap (fun e =>
    match e with
    | Event.waitForMessage t => some t
    | _ => none)

/-- The guest-handler invocations recorded in a trace, with their
payload bytes. -/
def handlerCalls (tr : List Event) : List (String × List UInt8) :=
  tr.filterMap (fun e =>
    match e with
    | Event.callHandler c p => some (c, p)
    | _ => none)

/-- The (topic, payload) pairs actually forwarded to the broker client
in a trace. -/
def brokerForwards (tr : List Event) : List (String × List UInt8) :=
  tr.filterMap (fun e =>
    match e with
    | Event.forwardToBroker t p => some (t, p)
    | _ => none)

/-- The bindgen-generated `SpinMqtt` instance type; its `Host::publish`
impl uses no state of the receiver (the printed address and qos are the
string literals `"self.address"` and `"self.qos"`). -/
structure SpinMqttInst where
  mk ::

/-- `impl Host for SpinMqtt { async fn publish }` (lines 146-164):
prints the payload, the literal strings `"self.address"` and
`"self.qos"`, and the topic, then returns `Ok(Ok(()))`; the body is a
stub (`TODO: implement MQTT publish here`) and contacts no broker. -/
def SpinMqttInst.publish (_self : SpinMqttInst) (topic : String)
    (payload : List UInt8) :
    List Event × Except String (Except String Unit) :=
  ([Event.printPublish payload "self.address" "self.qos" topic],
   Except.ok (Except.ok ()))

/-- `impl Host for MqttTrigger { async fn publish }` (lines 166-184):
identical body to the `SpinMqtt` impl; `self` is unused because the
printed address and qos are string literals, and no broker is
contacted. -/
def MqttTrigger.publish (_self : MqttTrigger) (topic : String)
    (payload : List UInt8) :
    List Event × Except String (Except String Unit) :=
  ([Event.printPublish payload "self.address" "self.qos" topic],
   Except.ok (Except.ok ()))

/-- Field names in a raw block, in order. -/
def blockKeys (b : RawBlock) : List String := b.map Prod.fst

/-- Whether a known `TriggerMetadata` field decodes at its expected
type. -/
def tmFieldOk (k : String) (v : FieldValue) : Bool :=
  if k = "type" then (decodeStringField v).isSome
  else if k = "address" then (decodeStringField v).isSome
  else if k = "qos" then (decodeU8Field v).isSome
  else false

/-- Whether a known `MqttTriggerConfig` field decodes at its expected
type. -/
def mcFieldOk (k : String) (v : FieldValue) : Bool :=
  if k = "component" then (decodeStringField v).isSome
  else if k = "topic" then (decodeStringField v).isSome
  else if k = "qos" then (decodeU8Field v).isSome
  else false

/-- A trigger-metadata block that is invalid in one of the ways claim
C5 enumerates: a required field missing, an unknown field present, or a
known field carrying a wrongly-typed value. -/
def tmBlockBad (b : RawBlock) : Prop :=
  ("type" ∉ blockKeys b) ∨ ("address" ∉ blockKeys b) ∨
  ("qos" ∉ blockKeys b) ∨
  (∃ k ∈ blockKeys b, k ∉ tmKnownFields) ∨
  (∃ p ∈ b, p.1 ∈ tmKnownFields ∧ tmFieldOk p.1 p.2 = false)

/-- A component block that is invalid in one of the ways claim C5
enumerates. -/
def mcBlockBad (b : RawBlock) : Prop :=
  ("component" ∉ blockKeys b) ∨ ("topic" ∉ blockKeys b) ∨
  ("qos" ∉ blockKeys b) ∨
  (∃ k ∈ blockKeys b, k ∉ mcKnownFields) ∨
  (∃ p ∈ b, p.1 ∈ mcKnownFields ∧ mcFieldOk p.1 p.2 = false)

/-- A well-behaved engine: preparation and binding succeed, the handler
reports success. -/
def engOk : Engine :=
  ⟨fun _ => Except.ok (), fun _ => Except.ok (),
   fun _ _ => Except.ok (Except.ok ())⟩

/-- An engine whose guest handler traps on every invocation. -/
def engTrap : Engine :=
  ⟨fun _ => Except.ok (), fun _ => Except.ok (),
   fun _ _ => Except.error "module trapped"⟩

/-- An engine for which instance preparation fails (missing module). -/
def engPrepFail : Engine :=
  ⟨fun _ => Except.error "no such component", fun _ => Except.ok (),
   fun _ _ => Except.ok (Except.ok ())⟩

/-- The example trigger of the spec's scenario: broker address
`mqtt://localhost:1883`, default qos 1, one binding
`(comp-a, qos 0, topic sensors/temp)`. -/
def exTrigger : MqttTrigger :=
  ⟨"mqtt://localhost:1883", 1, [("comp-a", 0, "sensors/temp")]⟩

/-- A second one-binding trigger, used for the message-loop claim. -/
def exTriggerB : MqttTrigger :=
  ⟨"mqtt://localhost:1883", 1, [("comp-b", 1, "sensors/hum")]⟩

/-- A metadata block with the `address` field missing. -/
def metaNoAddress : RawBlock :=
  [("type", FieldValue.str "mqtt"), ("qos", FieldValue.int 1)]

/-- A metadata block that decodes fine but with an empty address. -/
def metaEmptyAddress : RawBlock :=
  [("type", FieldValue.str "mqtt"), ("address", FieldValue.str ""),
   ("qos", FieldValue.int 0)]

/-- A component block that decodes fine but with qos 7. -/
def compQos7 : RawBlock :=
  [("component", FieldValue.str "c"), ("topic", FieldValue.str "t"),
   ("qos", FieldValue.int 7)]

/-- A valid example manifest metadata block. -/
def metaGood : RawBlock :=
  [("type", FieldValue.str "mqtt"),
   ("address", FieldValue.str "mqtt://localhost:1883"),
   ("qos", FieldValue.int 1)]

/-- A valid example component block. -/
def compGood : RawBlock :=
  [("component", FieldValue.str "comp-a"),
   ("topic", FieldValue.str "sensors/temp"),
   ("qos", FieldValue.int 0)]

theorem spawned_cons_print (s : String) (l : List Event) :
    spawnedListeners (Event.printLine s :: l) = spawnedListeners l := rfl

theorem spawned_cons_spawn (c : String) (q : Nat) (top : String) (l : List Event) :
    spawnedListeners (Event.spawnListener c q top :: l) =
      (c, q, top) :: spawnedListeners l := rfl

theorem spawned_append (l1 l2 : List Event) :
    spawnedListeners (l1 ++ l2) = spawnedListeners l1 ++ spawnedListeners l2 :=
  List.filterMap_append l1 l2 _

theorem subs_cons_print (s : String) (l : List Event) :
    subscriptions (Event.printLine s :: l) = subscriptions l := rfl

theorem subs_cons_spawn (c : String) (q : Nat) (top : String) (l : List Event) :
    subscriptions (Event.spawnListener c q top :: l) = subscriptions l := rfl

theorem subs_append (l1 l2 : List Event) :
    subscriptions (l1 ++ l2) = subscriptions l1 ++ subscriptions l2 :=
  List.filterMap_append l1 l2 _

theorem handle_trace_spawned (eng : Engine) (cid : String) (q : Nat) (top : String) :
    spawnedListeners (handle_mqtt_event eng cid q top).1 = [] := by
  unfold handle_mqtt_event
  cases eng.prepare_instance cid with
  | error e => rfl
  | ok u =>
    cases eng.bindInstance cid with
    | error e => rfl
    | ok u => rfl

theorem handle_trace_subs (eng : Engine) (cid : String) (q : Nat) (top : String) :
    subscriptions (handle_mqtt_event eng cid q top).1 = [] := by
  unfold handle_mqtt_event
  cases eng.prepare_instance cid with
  | error e => rfl
  | ok u =>
    cases eng.bindInstance cid with
    | error e => rfl
    | ok u => rfl

theorem listenerRun_trace_spawned (eng : Engine) (cfg : String × Nat × String) :
    spawnedListeners (listenerRun eng cfg).1 = [] := by
  have hh := handle_trace_spawned eng cfg.1 cfg.2.1 cfg.2.2
  unfold listenerRun
  cases hm : handle_mqtt_event eng cfg.1 cfg.2.1 cfg.2.2 with
  | mk tr r =>
    rw [hm] at hh
    cases r with
    | ok u => exact hh
    | error e =>
      show spawnedListeners (tr ++ [Event.taskPanic e]) = []
      rw [spawned_append, hh]
      rfl

theorem listenerRun_trace_subs (eng : Engine) (cfg : String × Nat × String) :
    subscriptions (listenerRun eng cfg).1 = [] := by
  have hh := handle_trace_subs eng cfg.1 cfg.2.1 cfg.2.2
  unfold listenerRun
  cases hm : handle_mqtt_event eng cfg.1 cfg.2.1 cfg.2.2 with
  | mk tr r =>
    rw [hm] at hh
    cases r with
    | ok u => exact hh
    | error e =>
      show subscriptions (tr ++ [Event.taskPanic e]) = []
      rw [subs_append, hh]
      rfl

theorem runTrigger_spawned (eng : Engine) (t : MqttTrigger) :
    spawnedListeners (runTrigger eng t) = t.component_configs := by
  obtain ⟨a, q, l⟩ := t
  simp only [runTrigger]
  induction l with
  | nil => rfl
  | cons c cs ih =>
    rw [spawned_cons_print] at ih ⊢
    simp only [List.map_cons, List.flatten_cons, List.cons_append,
      spawned_cons_print, spawned_cons_spawn, spawned_append,
      listenerRun_trace_spawned, List.nil_append]
    rw [ih]

theorem runTrigger_subs (eng : Engine) (t : MqttTrigger) :
    subscriptions (runTrigger eng t) = [] := by
  obtain ⟨a, q, l⟩ := t
  simp only [runTrigger]
  induction l with
  | nil => rfl
  | cons c cs ih =>
    rw [subs_cons_print] at ih ⊢
    simp only [List.map_cons, List.flatten_cons, List.cons_append,
      subs_cons_print, subs_cons_spawn, subs_append,
      listenerRun_trace_subs, List.nil_append]
    rw [ih]

/-- C1: the claim says a message delivered on topic T with payload P is
passed to the bound handler with payload bytes identical to P.  The
code instead invokes the handler with the fixed bytes of
"dummy mqtt data" (line 140): with a fully healthy engine the listener
for (comp-a, qos 0, sensors/temp) performs exactly one handler call
whose payload is `dummyPayload`, which differs from the delivered
payload bytes of the spec scenario message "23.5C". -/
theorem c1_handler_invoked_with_dummy_payload :
    handlerCalls (listenerRun engOk ("comp-a", 0, "sensors/temp")).1
      = [("comp-a", dummyPayload)] ∧
    dummyPayload ≠ strBytes "23.5C" :=
  ⟨rfl, by decide⟩

/-- C2: the claim says a failed invocation is logged and the listener
continues waiting for the next message.  In the code, a guest-handler
trap is silently discarded (`handle_mqtt_event` still returns `Ok(())`
and its trace contains no wait for a further message, because there is
no message loop), and an instance-preparation failure makes the spawned
task `.unwrap()` the error and panic instead of logging and
continuing. -/
theorem c2_listener_panics_or_swallows_failures :
    (handle_mqtt_event engTrap "comp-a" 0 "sensors/temp").2 = Except.ok () ∧
    messageWaits (handle_mqtt_event engTrap "comp-a" 0 "sensors/temp").1 = [] ∧
    (listenerRun engPrepFail ("comp-a", 0, "sensors/temp")).2 = true :=
  ⟨rfl, rfl, rfl⟩

/-- C3: the claim says publish returns Ok(()) only if the broker
accepts it.  The `SpinMqtt` Host impl is a stub: for
publish("sensors/ack", b"ok") it returns `Ok(Ok(()))` unconditionally
and forwards nothing to any broker, so the module observes success with
no broker involved at all. -/
theorem c3_publish_unconditionally_ok :
    SpinMqttInst.publish SpinMqttInst.mk "sensors/ack" (strBytes "ok")
      = ([Event.printPublish (strBytes "ok") "self.address" "self.qos"
           "sensors/ack"],
         Except.ok (Except.ok ())) ∧
    brokerForwards
      (SpinMqttInst.publish SpinMqttInst.mk "sensors/ack" (strBytes "ok")).1
      = [] :=
  ⟨rfl, rfl⟩

/-- C4: the claim says publish forwards (topic, payload) to the broker
client using the configured address and a well-defined outbound QoS,
not placeholder values.  The `MqttTrigger` Host impl forwards nothing
to a broker and prints the literal placeholder strings "self.address"
and "self.qos" instead of the configured address
"mqtt://localhost:1883" and qos of `exTrigger`. -/
theorem c4_publish_uses_placeholder_values :
    (MqttTrigger.publish exTrigger "alerts/temp" (strBytes "HIGH")).1
      = [Event.printPublish (strBytes "HIGH") "self.address" "self.qos"
          "alerts/temp"] ∧
    exTrigger.address ≠ "self.address" ∧
    brokerForwards
      (MqttTrigger.publish exTrigger "alerts/temp" (strBytes "HIGH")).1
      = [] :=
  ⟨rfl, by decide, rfl⟩

/-- C7: the claim says every listener runs a loop repeatedly waiting
for the next message on its topic.  Running the trigger with the
one-binding trigger `exTriggerB` and a healthy engine produces a trace
with no wait-for-message at all, no broker subscription, and exactly
one handler call (with the fixed dummy payload): each listener performs
a single invocation at startup and completes; no message loop
exists. -/
theorem c7_no_message_loop :
    messageWaits (runTrigger engOk exTriggerB) = [] ∧
    handlerCalls (runTrigger engOk exTriggerB) = [("comp-b", dummyPayload)] ∧
    subscriptions (runTrigger engOk exTriggerB) = [] :=
  ⟨rfl, rfl, rfl⟩

/-- C9: the two Host publish impls (for `SpinMqtt` and for
`MqttTrigger`) are behaviourally identical: for every receiver and
every (topic, payload) they produce the same trace and the same
result. -/
theorem c9_publish_impls_identical (s : SpinMqttInst) (t : MqttTrigger)
    (topic : String) (payload : List UInt8) :
    SpinMqttInst.publish s topic payload = MqttTrigger.publish t topic payload :=
  rfl

/-- C6 counterexample: for the concrete one-binding trigger `exTrigger`
the run spawns exactly the listener for (comp-a, qos 0, sensors/temp)
but performs zero broker subscriptions, refuting the part of the claim
that says each launched listener is subscribed with its binding's topic
and QoS. -/
theorem c6_no_subscription_counterexample :
    spawnedListeners (runTrigger engOk exTrigger)
      = [("comp-a", 0, "sensors/temp")] ∧
    subscriptions (runTrigger engOk exTrigger) = [] ∧
    ("sensors/temp", 0) ∉ subscriptions (runTrigger engOk exTrigger) :=
  ⟨rfl, rfl, List.not_mem_nil _⟩

/-- C6 (amended): starting the dispatcher launches exactly N concurrent
listener tasks, one per binding, each handed exactly that binding's
component id, QoS and topic; no broker subscription is made. -/
theorem c6_one_listener_per_binding (eng : Engine) (t : MqttTrigger) :
    spawnedListeners (runTrigger eng t) = t.component_configs ∧
    subscriptions (runTrigger eng t) = [] :=
  ⟨runTrigger_spawned eng t, runTrigger_subs eng t⟩

/-- C10: if instance preparation (`prepare_instance` and the
`SpinMqtt::new` binding step) succeeds then `handle_mqtt_event` returns
`Ok(())` whatever the guest handler does (its result is bound to
`_result` and discarded), and an error return can only come from one of
the two preparation steps. -/
theorem c10_handler_result_discarded (eng : Engine) (cid : String)
    (q : Nat) (top : String) :
    (eng.prepare_instance cid = Except.ok () →
      eng.bindInstance cid = Except.ok () →
      (handle_mqtt_event eng cid q top).2 = Except.ok ()) ∧
    (∀ e, (handle_mqtt_event eng cid q top).2 = Except.error e →
      eng.prepare_instance cid = Except.error e ∨
      eng.bindInstance cid = Except.error e) := by
  constructor
  · intro h1 h2
    simp [handle_mqtt_event, h1, h2]
  · intro e he
    unfold handle_mqtt_event at he
    cases hp : eng.prepare_instance cid with
    | error e2 =>
      simp only [hp] at he
      cases he
      exact Or.inl rfl
    | ok u =>
      simp only [hp] at he
      cases hb : eng.bindInstance cid with
      | error e2 =>
        simp only [hb] at he
        cases he
        exact Or.inr rfl
      | ok u2 =>
        simp only [hb] at he
        exact Except.noConfusion he

/-- C10 witness: with a trapping guest handler the function still
returns `Ok(())`, and with a failing instance preparation the error is
the preparation error. -/
theorem c10_handler_result_discarded_witness :
    (handle_mqtt_event engTrap "comp-b" 1 "sensors/hum").2 = Except.ok () ∧
    (engPrepFail.prepare_instance "comp-b" = Except.error "no such component" ∨
     engPrepFail.bindInstance "comp-b" = Except.error "no such component") :=
  ⟨(c10_handler_result_discarded engTrap "comp-b" 1 "sensors/hum").1 rfl rfl,
   (c10_handler_result_discarded engPrepFail "comp-b" 1 "sensors/hum").2
     "no such component" rfl⟩

theorem decodeU8Field_lt (v : FieldValue) (n : Nat)
    (h : decodeU8Field v = some n) : n < 256 := by
  cases v with
  | str s => exact Option.noConfusion h
  | int i =>
    simp only [decodeU8Field] at h
    by_cases hc : 0 ≤ i ∧ i < 256
    · rw [if_pos hc] at h
      injection h with h2
      omega
    · rw [if_neg hc] at h
      exact Option.noConfusion h

theorem tmAux_ok_shape (l : RawBlock) (t a : Option String) (q : Option Nat)
    (m : TriggerMetadata) (h : tmAux l t a q = Except.ok m) :
    (∀ p ∈ l, p.1 ∈ tmKnownFields ∧ tmFieldOk p.1 p.2 = true) ∧
    (t.isSome = true ∨ "type" ∈ blockKeys l) ∧
    (a.isSome = true ∨ "address" ∈ blockKeys l) ∧
    (q.isSome = true ∨ "qos" ∈ blockKeys l) ∧
    ((∀ j, q = some j → j < 256) → m.qos < 256) := by
  induction l generalizing t a q with
  | nil =>
    cases t with
    | none => exact Except.noConfusion h
    | some tv =>
      cases a with
      | none => exact Except.noConfusion h
      | some av =>
        cases q with
        | none => exact Except.noConfusion h
        | some qv =>
          injection h with h2
          subst h2
          exact ⟨by simp, Or.inl rfl, Or.inl rfl, Or.inl rfl,
            fun hq => hq qv rfl⟩
  | cons p rest ih =>
    obtain ⟨k, v⟩ := p
    simp only [tmAux] at h
    by_cases h1 : k = "type"
    · rw [if_pos h1] at h
      subst h1
      cases hv : decodeStringField v with
      | none =>
        rw [hv] at h
        exact Except.noConfusion h
      | some s =>
        rw [hv] at h
        cases t with
        | some tv => exact Except.noConfusion h
        | none =>
          obtain ⟨i1, i2, i3, i4, i5⟩ := ih (some s) a q h
          refine ⟨?_, ?_, ?_, ?_, i5⟩
          · intro p2 hp2
            rcases List.mem_cons.mp hp2 with rfl | hmem
            · exact ⟨by simp [tmKnownFields], by simp [tmFieldOk, hv]⟩
            · exact i1 p2 hmem
          · exact Or.inr (List.mem_cons_self _ _)
          · rcases i3 with h2 | h2
            · exact Or.inl h2
            · exact Or.inr (List.mem_cons_of_mem _ h2)
          · rcases i4 with h2 | h2
            · exact Or.inl h2
            · exact Or.inr (List.mem_cons_of_mem _ h2)
    · rw [if_neg h1] at h
      by_cases h2 : k = "address"
      · rw [if_pos h2] at h
        subst h2
        cases hv : decodeStringField v with
        | none =>
          rw [hv] at h
          exact Except.noConfusion h
        | some s =>
          rw [hv] at h
          cases a with
          | some av => exact Except.noConfusion h
          | none =>
            obtain ⟨i1, i2, i3, i4, i5⟩ := ih t (some s) q h
            refine ⟨?_, ?_, ?_, ?_, i5⟩
            · intro p2 hp2
              rcases List.mem_cons.mp hp2 with rfl | hmem
              · exact ⟨by simp [tmKnownFields], by simp [tmFieldOk, hv]⟩
              · exact i1 p2 hmem
            · rcases i2 with h3 | h3
              · exact Or.inl h3
              · exact Or.inr (List.mem_cons_of_mem _ h3)
            · exact Or.inr (List.mem_cons_self _ _)
            · rcases i4 with h3 | h3
              · exact Or.inl h3
              · exact Or.inr (List.mem_cons_of_mem _ h3)
      · rw [if_neg h2] at h
        by_cases h3 : k = "qos"
        · rw [if_pos h3] at h
          subst h3
          cases hv : decodeU8Field v with
          | none =>
            rw [hv] at h
            exact Except.noConfusion h
          | some n =>
            rw [hv] at h
            cases q with
            | some qv => exact Except.noConfusion h
            | none =>
              obtain ⟨i1, i2, i3, i4, i5⟩ := ih t a (some n) h
              refine ⟨?_, ?_, ?_, ?_, ?_⟩
              · intro p2 hp2
                rcases List.mem_cons.mp hp2 with rfl | hmem
                · exact ⟨by simp [tmKnownFields], by simp [tmFieldOk, hv]⟩
                · exact i1 p2 hmem
              · rcases i2 with h4 | h4
                · exact Or.inl h4
                · exact Or.inr (List.mem_cons_of_mem _ h4)
              · rcases i3 with h4 | h4
                · exact Or.inl h4
                · exact Or.inr (List.mem_cons_of_mem _ h4)
              · exact Or.inr (List.mem_cons_self _ _)
              · intro hq
                refine i5 ?_
                intro j hj
                injection hj with hj2
                subst hj2
                exact decodeU8Field_lt v _ hv
        · rw [if_neg h3] at h
          exact Except.noConfusion h

theorem mcAux_ok_shape (l : RawBlock) (c t : Option String) (q : Option Nat)
    (m : MqttTriggerConfig) (h : mcAux l c t q = Except.ok m) :
    (∀ p ∈ l, p.1 ∈ mcKnownFields ∧ mcFieldOk p.1 p.2 = true) ∧
    (c.isSome = true ∨ "component" ∈ blockKeys l) ∧
    (t.isSome = true ∨ "topic" ∈ blockKeys l) ∧
    (q.isSome = true ∨ "qos" ∈ blockKeys l) ∧
    ((∀ j, q = some j → j < 256) → m.qos < 256) := by
  induction l generalizing c t q with
  | nil =>
    cases c with
    | none => exact Except.noConfusion h
    | some cv =>
      cases t with
      | none => exact Except.noConfusion h
      | some tv =>
        cases q with
        | none => exact Except.noConfusion h
        | some qv =>
          injection h with h2
          subst h2
          exact ⟨by simp, Or.inl rfl, Or.inl rfl, Or.inl rfl,
            fun hq => hq qv rfl⟩
  | cons p rest ih =>
    obtain ⟨k, v⟩ := p
    simp only [mcAux] at h
    by_cases h1 : k = "component"
    · rw [if_pos h1] at h
      subst h1
      cases hv : decodeStringField v with
      | none =>
        rw [hv] at h
        exact Except.noConfusion h
      | some s =>
        rw [hv] at h
        cases c with
        | some cv => exact Except.noConfusion h
        | none =>
          obtain ⟨i1, i2, i3, i4, i5⟩ := ih (some s) t q h
          refine ⟨?_, ?_, ?_, ?_, i5⟩
          · intro p2 hp2
            rcases List.mem_cons.mp hp2 with rfl | hmem
            · exact ⟨by simp [mcKnownFields], by simp [mcFieldOk, hv]⟩
            · exact i1 p2 hmem
          · exact Or.inr (List.mem_cons_self _ _)
          · rcases i3 with h2 | h2
            · exact Or.inl h2
            · exact Or.inr (List.mem_cons_of_mem _ h2)
          · rcases i4 with h2 | h2
            · exact Or.inl h2
            · exact Or.inr (List.mem_cons_of_mem _ h2)
    · rw [if_neg h1] at h
      by_cases h2 : k = "topic"
      · rw [if_pos h2] at h
        subst h2
        cases hv : decodeStringField v with
        | none =>
          rw [hv] at h
          exact Except.noConfusion h
        | some s =>
          rw [hv] at h
          cases t with
          | some tv => exact Except.noConfusion h
          | none =>
            obtain ⟨i1, i2, i3, i4, i5⟩ := ih c (some s) q h
            refine ⟨?_, ?_, ?_, ?_, i5⟩
            · intro p2 hp2
              rcases List.mem_cons.mp hp2 with rfl | hmem
              · exact ⟨by simp [mcKnownFields], by simp [mcFieldOk, hv]⟩
              · exact i1 p2 hmem
            · rcases i2 with h3 | h3
              · exact Or.inl h3
              · exact Or.inr (List.mem_cons_of_mem _ h3)
            · exact Or.inr (List.mem_cons_self _ _)
            · rcases i4 with h3 | h3
              · exact Or.inl h3
              · exact Or.inr (List.mem_cons_of_mem _ h3)
      · rw [if_neg h2] at h
        by_cases h3 : k = "qos"
        · rw [if_pos h3] at h
          subst h3
          cases hv : decodeU8Field v with
          | none =>
            rw [hv] at h
            exact Except.noConfusion h
          | some n =>
            rw [hv] at h
            cases q with
            | some qv => exact Except.noConfusion h
            | none =>
              obtain ⟨i1, i2, i3, i4, i5⟩ := ih c t (some n) h
              refine ⟨?_, ?_, ?_, ?_, ?_⟩
              · intro p2 hp2
                rcases List.mem_cons.mp hp2 with rfl | hmem
                · exact ⟨by simp [mcKnownFields], by simp [mcFieldOk, hv]⟩
                · exact i1 p2 hmem
              · rcases i2 with h4 | h4
                · exact Or.inl h4
                · exact Or.inr (List.mem_cons_of_mem _ h4)
              · rcases i3 with h4 | h4
                · exact Or.inl h4
                · exact Or.inr (List.mem_cons_of_mem _ h4)
              · exact Or.inr (List.mem_cons_self _ _)
              · intro hq
                refine i5 ?_
                intro j hj
                injection hj with hj2
                subst hj2
                exact decodeU8Field_lt v _ hv
        · rw [if_neg h3] at h
          exact Except.noConfusion h

theorem decodeConfigs_ok_each (raws : List RawBlock)
    (cs : List MqttTriggerConfig) (h : decodeConfigs raws = Except.ok cs) :
    (∀ b ∈ raws, ∃ c, decodeMqttTriggerConfig b = Except.ok c) ∧
    (∀ c ∈ cs, ∃ b, b ∈ raws ∧ decodeMqttTriggerConfig b = Except.ok c) := by
  induction raws generalizing cs with
  | nil =>
    injection h with h2
    subst h2
    exact ⟨by simp, by simp⟩
  | cons b rest ih =>
    simp only [decodeConfigs] at h
    cases hb : decodeMqttTriggerConfig b with
    | error e =>
      rw [hb] at h
      exact Except.noConfusion h
    | ok c =>
      rw [hb] at h
      cases hr : decodeConfigs rest with
      | error e =>
        rw [hr] at h
        exact Except.noConfusion h
      | ok cs2 =>
        rw [hr] at h
        injection h with h2
        subst h2
        obtain ⟨ih1, ih2⟩ := ih cs2 hr
        constructor
        · intro b2 hb2
          rcases List.mem_cons.mp hb2 with rfl | hmem
          · exact ⟨c, hb⟩
          · exact ih1 b2 hmem
        · intro c2 hc2
          rcases List.mem_cons.mp hc2 with rfl | hmem
          · exact ⟨b, List.mem_cons_self _ _, hb⟩
          · obtain ⟨b2, hb2, hd⟩ := ih2 c2 hmem
            exact ⟨b2, List.mem_cons_of_mem _ hb2, hd⟩

theorem startApp_ok_parts (meta : RawBlock) (raws : List RawBlock)
    (t : MqttTrigger) (h : startApp meta raws = Except.ok t) :
    ∃ cfgs m, decodeConfigs raws = Except.ok cfgs ∧
      decodeTriggerMetadata meta = Except.ok m ∧
      t = ⟨m.address, m.qos,
        cfgs.map (fun c => (c.component, c.qos, c.topic))⟩ := by
  simp only [startApp] at h
  cases hc : decodeConfigs raws with
  | error e =>
    rw [hc] at h
    exact Except.noConfusion h
  | ok cfgs =>
    rw [hc] at h
    simp only [MqttTrigger.new] at h
    cases hm : decodeTriggerMetadata meta with
    | error e =>
      rw [hm] at h
      exact Except.noConfusion h
    | ok m =>
      rw [hm] at h
      injection h with h2
      exact ⟨cfgs, m, rfl, rfl, h2.symm⟩

/-- C5: a manifest whose trigger metadata block or one of whose
component entries is missing a required field, has an unknown field, or
carries a wrongly-typed value makes configuration resolution fail with
an error, and nothing runs afterwards: the process produces no events
and in particular starts zero listeners. -/
theorem c5_invalid_manifest_fails_before_listeners (meta : RawBlock)
    (raws : List RawBlock) (eng : Engine)
    (h : tmBlockBad meta ∨ ∃ b ∈ raws, mcBlockBad b) :
    (∃ e, startApp meta raws = Except.error e) ∧
    startedEvents eng meta raws = [] ∧
    spawnedListeners (startedEvents eng meta raws) = [] := by
  have hnotok : ∀ t, ¬ startApp meta raws = Except.ok t := by
    intro t hok
    obtain ⟨cfgs, m, hc, hm, -⟩ := startApp_ok_parts meta raws t hok
    rcases h with hbad | ⟨b, hbmem, hbad⟩
    · obtain ⟨s1, s2, s3, s4, -⟩ := tmAux_ok_shape meta none none none m hm
      rcases hbad with hx | hx | hx | ⟨k, hk, hkn⟩ | ⟨p, hp, hpk, hpf⟩
      · rcases s2 with h2 | h2
        · simp at h2
        · exact hx h2
      · rcases s3 with h2 | h2
        · simp at h2
        · exact hx h2
      · rcases s4 with h2 | h2
        · simp at h2
        · exact hx h2
      · obtain ⟨p, hpmem, hpeq⟩ := List.mem_map.mp hk
        obtain ⟨hknown, -⟩ := s1 p hpmem
        exact hkn (hpeq ▸ hknown)
      · obtain ⟨-, hok2⟩ := s1 p hp
        rw [hpf] at hok2
        exact Bool.noConfusion hok2
    · obtain ⟨hall, -⟩ := decodeConfigs_ok_each raws cfgs hc
      obtain ⟨c, hcb⟩ := hall b hbmem
      obtain ⟨s1, s2, s3, s4, -⟩ := mcAux_ok_shape b none none none c hcb
      rcases hbad with hx | hx | hx | ⟨k, hk, hkn⟩ | ⟨p, hp, hpk, hpf⟩
      · rcases s2 with h2 | h2
        · simp at h2
        · exact hx h2
      · rcases s3 with h2 | h2
        · simp at h2
        · exact hx h2
      · rcases s4 with h2 | h2
        · simp at h2
        · exact hx h2
      · obtain ⟨p, hpmem, hpeq⟩ := List.mem_map.mp hk
        obtain ⟨hknown, -⟩ := s1 p hpmem
        exact hkn (hpeq ▸ hknown)
      · obtain ⟨-, hok2⟩ := s1 p hp
        rw [hpf] at hok2
        exact Bool.noConfusion hok2
  cases hs : startApp meta raws with
  | error e =>
    refine ⟨⟨e, rfl⟩, ?_, ?_⟩
    · simp [startedEvents, hs]
    · simp [startedEvents, hs, spawnedListeners]
  | ok t => exact absurd hs (hnotok t)

/-- C5 witness: the concrete metadata block missing the `address` field
fails resolution and starts nothing. -/
theorem c5_invalid_manifest_witness :
    (∃ e, startApp metaNoAddress [] = Except.error e) ∧
    startedEvents engOk metaNoAddress [] = [] ∧
    spawnedListeners (startedEvents engOk metaNoAddress []) = [] :=
  c5_invalid_manifest_fails_before_listeners metaNoAddress [] engOk
    (Or.inl (Or.inr (Or.inl (by decide))))

/-- C8 counterexample: configuration resolution accepts a component
entry with qos 7 (any value fitting in a u8 is accepted, nothing checks
membership in 0..2) and an empty broker address, refuting the claimed
invariant that accepted bindings have qos in 0, 1, 2 and a non-empty
address. -/
theorem c8_qos_seven_accepted_counterexample :
    ∃ t, startApp metaEmptyAddress [compQos7] = Except.ok t ∧
      t.address = "" ∧ ("c", 7, "t") ∈ t.component_configs ∧
      ¬ (7 = 0 ∨ 7 = 1 ∨ 7 = 2) :=
  ⟨⟨"", 0, [("c", 7, "t")]⟩, rfl, rfl, by decide, by decide⟩

/-- C8 (amended): every binding accepted by configuration resolution
has a qos that fits in a u8 (below 256; values outside 0..2 are
accepted, and the broker address may be any string including the empty
one), the trigger default qos likewise fits in a u8, and the binding
list is fixed after startup: the listeners `run` spawns are exactly the
accepted bindings, unchanged. -/
theorem c8_accepted_bindings_u8_and_fixed (meta : RawBlock)
    (raws : List RawBlock) (t : MqttTrigger) (eng : Engine)
    (h : startApp meta raws = Except.ok t) :
    t.qos < 256 ∧
    (∀ c ∈ t.component_configs, c.2.1 < 256) ∧
    spawnedListeners (runTrigger eng t) = t.component_configs := by
  obtain ⟨cfgs, m, hc, hm, ht⟩ := startApp_ok_parts meta raws t h
  subst ht
  refine ⟨?_, ?_, runTrigger_spawned eng _⟩
  · obtain ⟨-, -, -, -, h5⟩ := tmAux_ok_shape meta none none none m hm
    exact h5 (fun j hj => Option.noConfusion hj)
  · intro cfg hcfg
    obtain ⟨-, hsrc⟩ := decodeConfigs_ok_each raws cfgs hc
    obtain ⟨c, hcmem, hceq⟩ := List.mem_map.mp hcfg
    obtain ⟨b, hbmem, hbd⟩ := hsrc c hcmem
    obtain ⟨-, -, -, -, h5⟩ := mcAux_ok_shape b none none none c hbd
    rw [← hceq]
    exact h5 (fun j hj => Option.noConfusion hj)

/-- C8 witness: the valid example manifest resolves to `exTrigger`,
whose qos values fit in a u8 and whose spawned listeners are exactly
its bindings. -/
theorem c8_accepted_bindings_witness :
    exTrigger.qos < 256 ∧
    (∀ c ∈ exTrigger.component_configs, c.2.1 < 256) ∧
    spawnedListeners (runTrigger engOk exTrigger)
      = exTrigger.component_configs :=
  c8_accepted_bindings_u8_and_fixed metaGood [compGood] exTrigger engOk rfl
